import Mathlib

/-!
Shallow embedding of the offline task-sync client in
`src/TaskManager/src/hooks/useTasks.tsx`.

The client keeps three pieces of observable state: the persisted local
record store (`localStorage` under `offline_tasks`), the React-visible
task list (`tasks` state), the pending counter (`pendingSyncCount`) and
the last-sync timestamp.  Network effects are modelled by explicit
environment parameters: each awaited remote call either succeeds
(possibly returning server data) or throws, selecting the `catch`
branch of the source.  Timestamps are naturals; each operation receives
the value `new Date()` reads during that call.
-/

namespace OfflineTasks

inductive SyncStatus
  | pending
  | synced
  | error
deriving DecidableEq, Repr

/-- The `Task` interface of `useTasks.tsx` (a server-shaped row). -/
structure Task where
  id : String
  user_id : String
  title : String
  description : Option String
  completed : Bool
  created_at : Nat
  updated_at : Nat
  is_deleted : Bool
  server_id : Option String
  last_synced_at : Option Nat
deriving DecidableEq, Repr

/-- The `LocalTask` interface: a task as persisted in the local record
store (`user_id` omitted, `sync_status` added). -/
structure LocalTask where
  id : String
  title : String
  description : Option String
  completed : Bool
  created_at : Nat
  updated_at : Nat
  is_deleted : Bool
  server_id : Option String
  last_synced_at : Option Nat
  sync_status : SyncStatus
deriving DecidableEq, Repr

def defaultTask : LocalTask :=
  { id := "", title := "", description := none, completed := false,
    created_at := 0, updated_at := 0, is_deleted := false,
    server_id := none, last_synced_at := none, sync_status := SyncStatus.pending }

/-- `{...task, sync_status: 'synced'}` in `fetchTasks`. -/
def toLocal (t : Task) : LocalTask :=
  { id := t.id, title := t.title, description := t.description,
    completed := t.completed, created_at := t.created_at,
    updated_at := t.updated_at, is_deleted := t.is_deleted,
    server_id := t.server_id, last_synced_at := t.last_synced_at,
    sync_status := SyncStatus.synced }

/-- `{...t, user_id: user.id}`: a local task served back to the UI. -/
def toTask (uid : String) (t : LocalTask) : Task :=
  { id := t.id, user_id := uid, title := t.title,
    description := t.description, completed := t.completed,
    created_at := t.created_at, updated_at := t.updated_at,
    is_deleted := t.is_deleted, server_id := t.server_id,
    last_synced_at := t.last_synced_at }

def isPending (t : LocalTask) : Bool :=
  decide (t.sync_status = SyncStatus.pending)

/-- `saveLocalTasks` recomputes the pending counter as
`localTasks.filter(t => t.sync_status === 'pending' && !t.is_deleted).length`. -/
def pendingCountOf (l : List LocalTask) : Nat :=
  (l.filter (fun t => isPending t && !t.is_deleted)).length

/-- The client state visible to the hook: the persisted store, the
React task list, the pending counter and the last sync timestamp. -/
structure ClientState where
  store : List LocalTask
  tasks : List Task
  pendingSyncCount : Nat
  lastSyncTime : Option Nat
deriving DecidableEq, Repr

def emptyState : ClientState :=
  { store := [], tasks := [], pendingSyncCount := 0, lastSyncTime := none }

/-- Network calls issued to the Supabase gateway. -/
inductive NetCall
  | fetchAll
  | insert (title : String) (description : Option String)
      (completed : Option Bool) (userId : String)
  | update (rowId : String) (title : Option String)
      (description : Option (Option String)) (completed : Option Bool)
  | softDelete (rowId : String)
deriving DecidableEq, Repr

/-- Network environment for one create/update/delete call: the device is
offline, or the awaited remote call succeeds (`sid` is the server-assigned
row id, used by inserts), or it throws. -/
inductive NetEnv
  | offline
  | onlineOk (sid : String)
  | onlineErr
deriving DecidableEq, Repr

/-- Outcome of one awaited remote call inside `syncTasks`: resolve
(`dataId` = `data?.id` for inserts) or throw with a message. -/
inductive SyncOpResult
  | ok (dataId : Option String)
  | exn (msg : String)
deriving DecidableEq, Repr

/-- The `Partial<Pick<Task, 'title' | 'description' | 'completed'>>`
argument of `updateTask`: absent fields are `none`. -/
structure TaskUpdates where
  title : Option String := none
  description : Option (Option String) := none
  completed : Option Bool := none
deriving DecidableEq, Repr

/-- `{...task, ...updates}` on a local task. -/
def applyUpdatesL (u : TaskUpdates) (t : LocalTask) : LocalTask :=
  { t with title := u.title.getD t.title,
           description := u.description.getD t.description,
           completed := u.completed.getD t.completed }

/-- `{...t, ...updates}` on a visible task. -/
def applyUpdatesT (u : TaskUpdates) (t : Task) : Task :=
  { t with title := u.title.getD t.title,
           description := u.description.getD t.description,
           completed := u.completed.getD t.completed }

/-- JavaScript `description || null` from `createTask`: an absent or
empty string becomes `none`. -/
def jsDescr (d : Option String) : Option String :=
  match d with
  | some s => if s = "" then none else some s
  | none => none

/-- `const index = localTasks.findIndex(t => t.id === id);
if (index !== -1) localTasks[index] = f(localTasks[index])`. -/
def setAtId (l : List LocalTask) (id : String) (f : LocalTask → LocalTask) :
    List LocalTask :=
  match l.findIdx? (fun t => decide (t.id = id)) with
  | some i => l.set i (f (l.getD i defaultTask))
  | none => l

def markSynced (l : List LocalTask) (id : String) (now : Nat) : List LocalTask :=
  setAtId l id (fun t =>
    { t with sync_status := SyncStatus.synced, last_synced_at := some now })

def markError (l : List LocalTask) (id : String) : List LocalTask :=
  setAtId l id (fun t => { t with sync_status := SyncStatus.error })

/-- `fetchTasks`: on success the server rows replace both the visible
list and the whole local store (every row re-tagged `synced`) and the
last-sync timestamp is stamped; on failure the visible list falls back
to the non-deleted local records and the store is untouched. -/
def fetchTasks (uid : String) (now : Nat) (resp : Option (List Task))
    (st : ClientState) : ClientState × List NetCall :=
  match resp with
  | some data =>
      let localTasks := data.map toLocal
      ({ store := localTasks, tasks := data,
         pendingSyncCount := pendingCountOf localTasks,
         lastSyncTime := some now }, [NetCall.fetchAll])
  | none =>
      ({ st with tasks := (st.store.filter (fun t => !t.is_deleted)).map (toTask uid) },
       [NetCall.fetchAll])

/-- `createTask`: optimistic local append, then (when online) an insert
whose success records the server id and marks the record synced and
whose failure leaves the optimistic write in place. -/
def createTask (uid : String) (now : Nat) (newId title : String)
    (description : Option String) (env : NetEnv) (st : ClientState) :
    ClientState × List NetCall :=
  let newTask : LocalTask :=
    { id := newId, title := title, description := jsDescr description,
      completed := false, created_at := now, updated_at := now,
      is_deleted := false, server_id := none, last_synced_at := none,
      sync_status := SyncStatus.pending }
  let store1 := st.store ++ [newTask]
  let st1 : ClientState :=
    { st with
      store := store1
      tasks := toTask uid newTask :: st.tasks
      pendingSyncCount := pendingCountOf store1 }
  match env with
  | NetEnv.offline => (st1, [])
  | NetEnv.onlineErr => (st1, [NetCall.insert title description none uid])
  | NetEnv.onlineOk sid =>
      let store2 := store1.map (fun t =>
        if t.id = newId then
          { t with
            server_id := some sid
            sync_status := SyncStatus.synced
            last_synced_at := some now }
        else t)
      ({ st1 with store := store2, pendingSyncCount := pendingCountOf store2 },
       [NetCall.insert title description none uid])

/-- `updateTask`: locate by `id` or `server_id`, apply the partial
update locally (status `pending`), then (when online) push the update;
success re-marks the record synced, failure keeps the pending write. -/
def updateTask (uid id : String) (u : TaskUpdates) (now : Nat) (env : NetEnv)
    (st : ClientState) : ClientState × List NetCall :=
  match st.store.findIdx? (fun t => decide (t.id = id ∨ t.server_id = some id)) with
  | none => (st, [])
  | some i =>
      let old := st.store.getD i defaultTask
      let updatedTask : LocalTask :=
        { applyUpdatesL u old with
          updated_at := now
          sync_status := SyncStatus.pending }
      let store1 := st.store.set i updatedTask
      let tasks1 := st.tasks.map (fun t =>
        if t.id = id ∨ t.server_id = some id then
          { applyUpdatesT u t with updated_at := now }
        else t)
      let st1 : ClientState :=
        { st with
          store := store1
          tasks := tasks1
          pendingSyncCount := pendingCountOf store1 }
      let call := NetCall.update (old.server_id.getD id) u.title u.description u.completed
      match env with
      | NetEnv.offline => (st1, [])
      | NetEnv.onlineErr => (st1, [call])
      | NetEnv.onlineOk _ =>
          let store2 := store1.set i
            { updatedTask with
              sync_status := SyncStatus.synced
              last_synced_at := some now }
          ({ st1 with store := store2, pendingSyncCount := pendingCountOf store2 },
           [call])

/-- `deleteTask`: locate by `id` or `server_id`, tombstone the record
locally (status `pending`), drop it from the visible list, then (when
online) push the soft delete; success removes the record from the store
by position, failure keeps the tombstone. -/
def deleteTask (uid id : String) (now : Nat) (env : NetEnv)
    (st : ClientState) : ClientState × List NetCall :=
  match st.store.findIdx? (fun t => decide (t.id = id ∨ t.server_id = some id)) with
  | none => (st, [])
  | some i =>
      let old := st.store.getD i defaultTask
      let tomb : LocalTask :=
        { old with
          is_deleted := true
          updated_at := now
          sync_status := SyncStatus.pending }
      let store1 := st.store.set i tomb
      let tasks1 := st.tasks.filter (fun t =>
        !(decide (t.id = id)) && !(decide (t.server_id = some id)))
      let st1 : ClientState :=
        { st with
          store := store1
          tasks := tasks1
          pendingSyncCount := pendingCountOf store1 }
      let call := NetCall.softDelete (tomb.server_id.getD id)
      match env with
      | NetEnv.offline => (st1, [])
      | NetEnv.onlineErr => (st1, [call])
      | NetEnv.onlineOk _ =>
          let store2 := store1.eraseIdx i
          ({ st1 with store := store2, pendingSyncCount := pendingCountOf store2 },
           [call])

/-- One iteration of the `for (const task of pendingTasks)` loop in
`syncTasks`, acting on (evolving store, call log, syncedCount, errorCount). -/
def pushStep (uid : String) (now : Nat) (env : String → SyncOpResult)
    (acc : List LocalTask × List NetCall × Nat × Nat) (task : LocalTask) :
    List LocalTask × List NetCall × Nat × Nat :=
  let l := acc.1
  let cs := acc.2.1
  let sc := acc.2.2.1
  let ec := acc.2.2.2
  if task.is_deleted then
    match task.server_id with
    | some sid =>
        match env task.id with
        | SyncOpResult.ok _ =>
            (markSynced l task.id now, cs ++ [NetCall.softDelete sid], sc + 1, ec)
        | SyncOpResult.exn _ =>
            (markError l task.id, cs ++ [NetCall.softDelete sid], sc, ec + 1)
    | none => (markSynced l task.id now, cs, sc + 1, ec)
  else
    match task.server_id with
    | some sid =>
        match env task.id with
        | SyncOpResult.ok _ =>
            (markSynced l task.id now,
             cs ++ [NetCall.update sid (some task.title) (some task.description)
                      (some task.completed)], sc + 1, ec)
        | SyncOpResult.exn _ =>
            (markError l task.id,
             cs ++ [NetCall.update sid (some task.title) (some task.description)
                      (some task.completed)], sc, ec + 1)
    | none =>
        match env task.id with
        | SyncOpResult.ok dataId =>
            let l1 := match dataId with
              | some d => setAtId l task.id (fun t => { t with server_id := some d })
              | none => l
            (markSynced l1 task.id now,
             cs ++ [NetCall.insert task.title task.description
                      (some task.completed) uid], sc + 1, ec)
        | SyncOpResult.exn _ =>
            (markError l task.id,
             cs ++ [NetCall.insert task.title task.description
                      (some task.completed) uid], sc, ec + 1)

/-- The push portion of `syncTasks` (lines 283–352): iterate the filtered
pending snapshot over the evolving store. -/
def syncPush (uid : String) (now : Nat) (env : String → SyncOpResult)
    (l : List LocalTask) : List LocalTask × List NetCall × Nat × Nat :=
  (l.filter isPending).foldl (pushStep uid now env) (l, [], 0, 0)

/-- `syncTasks`: early-return when nothing is pending; otherwise push
every pending record, persist, then run one `fetchTasks` pull.
Returns (state, call log, syncedCount, errorCount). -/
def syncTasks (uid : String) (now : Nat) (env : String → SyncOpResult)
    (pull : Option (List Task)) (st : ClientState) :
    ClientState × List NetCall × Nat × Nat :=
  let pendingTasks := st.store.filter isPending
  if pendingTasks.isEmpty then (st, [], 0, 0)
  else
    let r := syncPush uid now env st.store
    let st1 : ClientState :=
      { st with store := r.1, pendingSyncCount := pendingCountOf r.1 }
    let f := fetchTasks uid now pull st1
    (f.1, r.2.1 ++ f.2, r.2.2.1, r.2.2.2)

/-- The effect of one push-loop iteration on the record it processes,
as a per-record function: the branch structure of `pushStep` read off a
single record (used to state that a push pass touches each pending
record independently). -/
def pushTransform (now : Nat) (env : String → SyncOpResult) (t : LocalTask) :
    LocalTask :=
  if t.is_deleted then
    match t.server_id with
    | some _ =>
        match env t.id with
        | SyncOpResult.ok _ =>
            { t with sync_status := SyncStatus.synced, last_synced_at := some now }
        | SyncOpResult.exn _ => { t with sync_status := SyncStatus.error }
    | none =>
        { t with sync_status := SyncStatus.synced, last_synced_at := some now }
  else
    match t.server_id with
    | some _ =>
        match env t.id with
        | SyncOpResult.ok _ =>
            { t with sync_status := SyncStatus.synced, last_synced_at := some now }
        | SyncOpResult.exn _ => { t with sync_status := SyncStatus.error }
    | none =>
        match env t.id with
        | SyncOpResult.ok dataId =>
            { t with
              server_id := match dataId with
                | some d => some d
                | none => t.server_id
              sync_status := SyncStatus.synced
              last_synced_at := some now }
        | SyncOpResult.exn _ => { t with sync_status := SyncStatus.error }

/-- The network calls one push-loop iteration issues for a record. -/
def callsOf (uid : String) (t : LocalTask) : List NetCall :=
  if t.is_deleted then
    match t.server_id with
    | some sid => [NetCall.softDelete sid]
    | none => []
  else
    match t.server_id with
    | some sid =>
        [NetCall.update sid (some t.title) (some t.description) (some t.completed)]
    | none => [NetCall.insert t.title t.description (some t.completed) uid]

/-- Whether the push-loop iteration for a record reaches `syncedCount++`
(its remote call resolves, or no call was needed). -/
def okOf (env : String → SyncOpResult) (t : LocalTask) : Bool :=
  if t.is_deleted && t.server_id.isNone then true
  else
    match env t.id with
    | SyncOpResult.ok _ => true
    | SyncOpResult.exn _ => false

/-- A user operation issued through the façade. -/
inductive Op
  | create (now : Nat) (newId title : String) (description : Option String)
  | update (id : String) (u : TaskUpdates) (now : Nat)
  | del (id : String) (now : Nat)
deriving DecidableEq, Repr

/-- Apply one user operation while offline. -/
def applyOpOffline (uid : String) (s : ClientState) : Op → ClientState
  | Op.create now newId title d => (createTask uid now newId title d NetEnv.offline s).1
  | Op.update id u now => (updateTask uid id u now NetEnv.offline s).1
  | Op.del id now => (deleteTask uid id now NetEnv.offline s).1

/-! ## Concrete fixtures -/

/-- A locally edited record, pending push: title "X-edited", ahead of the
server copy. -/
def xEditedTask : LocalTask :=
  { id := "t1", title := "X-edited", description := none, completed := false,
    created_at := 0, updated_at := 20, is_deleted := false,
    server_id := some "s1", last_synced_at := some 10,
    sync_status := SyncStatus.pending }

/-- The stale server copy of the same record: title "X-old". -/
def xOldRow : Task :=
  { id := "t1", user_id := "u", title := "X-old", description := none,
    completed := false, created_at := 0, updated_at := 10,
    is_deleted := false, server_id := none, last_synced_at := none }

def xState : ClientState :=
  { store := [xEditedTask], tasks := [toTask "u" xEditedTask],
    pendingSyncCount := 1, lastSyncTime := none }

/-- A task created offline and never pushed (`server_id` absent). -/
def freshTask : LocalTask :=
  { id := "a1", title := "A", description := none, completed := false,
    created_at := 1, updated_at := 1, is_deleted := false,
    server_id := none, last_synced_at := none,
    sync_status := SyncStatus.pending }

def freshState : ClientState :=
  { store := [freshTask], tasks := [toTask "u" freshTask],
    pendingSyncCount := 1, lastSyncTime := none }

/-- A pending tombstone for a record that never reached the server. -/
def deletedUnsyncedTask : LocalTask :=
  { id := "d1", title := "D", description := none, completed := false,
    created_at := 1, updated_at := 2, is_deleted := true,
    server_id := none, last_synced_at := none,
    sync_status := SyncStatus.pending }

def deletedUnsyncedState : ClientState :=
  { store := [deletedUnsyncedTask], tasks := [],
    pendingSyncCount := 0, lastSyncTime := none }

/-- A pending record with a server counterpart, used for failing pushes. -/
def c5task : LocalTask :=
  { id := "p1", title := "P", description := none, completed := false,
    created_at := 1, updated_at := 3, is_deleted := false,
    server_id := some "sp1", last_synced_at := some 1,
    sync_status := SyncStatus.pending }

def c5state : ClientState :=
  { store := [c5task], tasks := [toTask "u" c5task],
    pendingSyncCount := 1, lastSyncTime := none }

/-- First pending record of the partial-batch scenario (its push will
be failed by the environment). -/
def q1 : LocalTask :=
  { id := "q1", title := "Q1", description := none, completed := false,
    created_at := 1, updated_at := 1, is_deleted := false,
    server_id := none, last_synced_at := none,
    sync_status := SyncStatus.pending }

/-- Second pending record of the partial-batch scenario (its push will
succeed). -/
def q2 : LocalTask :=
  { id := "q2", title := "Q2", description := none, completed := false,
    created_at := 2, updated_at := 2, is_deleted := false,
    server_id := none, last_synced_at := none,
    sync_status := SyncStatus.pending }

def qStore : List LocalTask := [q1, q2]

/-- Environment that rejects the first record's insert and resolves the
second's. -/
def qEnv : String → SyncOpResult := fun s =>
  if s = "q1" then SyncOpResult.exn "ValidationError" else SyncOpResult.ok (some "sq2")

/-! ## Supporting lemmas -/

/-- Records with equal ids in a store with no duplicate ids are equal. -/
theorem idsNodup_inj {l : List LocalTask} (hnd : (l.map (fun t => t.id)).Nodup)
    {t t' : LocalTask} (ht : t ∈ l) (ht' : t' ∈ l) (e : t.id = t'.id) : t = t' :=
  List.inj_on_of_nodup_map hnd ht ht' e

/-- With unique ids, the findIndex-and-assign idiom rewrites exactly the
one record with the given id. -/
theorem setAtId_eq_map (l : List LocalTask) (t0 : LocalTask) (f : LocalTask → LocalTask)
    (hnd : (l.map (fun t => t.id)).Nodup) (ht0 : t0 ∈ l) :
    setAtId l t0.id f = l.map (fun t => if t.id = t0.id then f t else t) := by
  unfold setAtId
  split
  next i heq =>
    rw [List.findIdx?_eq_some_iff_findIdx_eq] at heq
    obtain ⟨hi, hfi⟩ := heq
    subst hfi
    have h3 := @List.findIdx_getElem _ (fun t => decide (t.id = t0.id)) l hi
    simp only [decide_eq_true_eq] at h3
    apply List.ext_getElem
    · simp
    · intro n h1 h2
      have hn1 : n < l.length := by simpa using h1
      by_cases hn : n = List.findIdx (fun t => decide (t.id = t0.id)) l
      · subst hn
        rw [List.getElem_set_self, List.getElem_map, List.getD_eq_getElem _ _ hi,
          if_pos h3]
      · rw [List.getElem_set_ne (fun e => hn e.symm), List.getElem_map]
        have hn2 : n < (l.map (fun t => t.id)).length := by simpa using hn1
        have hi2 : List.findIdx (fun t => decide (t.id = t0.id)) l <
            (l.map (fun t => t.id)).length := by simpa using hi
        have hne : (l[n]).id ≠ t0.id := by
          intro e
          apply hn
          have e2 : (l.map (fun t => t.id))[n] =
              (l.map (fun t => t.id))[List.findIdx (fun t => decide (t.id = t0.id)) l] := by
            rw [List.getElem_map, List.getElem_map, e, h3]
          exact (List.Nodup.getElem_inj_iff hnd).mp e2
        rw [if_neg hne]
  next heq =>
    rw [List.findIdx?_eq_none_iff] at heq
    have h2 := heq t0 ht0
    simp at h2

theorem pushTransform_id (now : Nat) (env : String → SyncOpResult) (t : LocalTask) :
    (pushTransform now env t).id = t.id := by
  unfold pushTransform
  rcases hd : t.is_deleted <;> rcases hs : t.server_id <;> rcases he : env t.id <;>
    simp [hd, hs, he]

theorem mapIds_preserved (l : List LocalTask) (f : LocalTask → LocalTask)
    (hf : ∀ t, (f t).id = t.id) :
    (l.map f).map (fun t => t.id) = l.map (fun t => t.id) := by
  rw [List.map_map]
  exact List.map_congr_left (fun t _ => hf t)

/-- Two consecutive findIndex-and-assign steps aimed at the same id
compose into one per-record rewrite. -/
theorem setAtId_twice_map (l : List LocalTask) (p : LocalTask)
    (g1 g2 : LocalTask → LocalTask)
    (hnd : (l.map (fun t => t.id)).Nodup) (hp : p ∈ l)
    (hg1 : ∀ t, (g1 t).id = t.id) :
    setAtId (setAtId l p.id g1) p.id g2 =
      l.map (fun t => if t.id = p.id then g2 (g1 t) else t) := by
  rw [setAtId_eq_map l p g1 hnd hp]
  have hfid : ∀ t : LocalTask, ((fun t => if t.id = p.id then g1 t else t) t).id = t.id := by
    intro t
    by_cases h : t.id = p.id <;> simp [h, hg1]
  have hnd2 : ((l.map (fun t => if t.id = p.id then g1 t else t)).map (fun t => t.id)).Nodup := by
    rw [mapIds_preserved _ _ hfid]
    exact hnd
  have hp1 : g1 p ∈ l.map (fun t => if t.id = p.id then g1 t else t) :=
    List.mem_map.mpr ⟨p, hp, by simp⟩
  have h2 := setAtId_eq_map (l.map (fun t => if t.id = p.id then g1 t else t)) (g1 p) g2 hnd2 hp1
  rw [hg1 p] at h2
  rw [h2, List.map_map]
  apply List.map_congr_left
  intro t _
  by_cases h : t.id = p.id
  · simp [Function.comp, h, hg1]
  · simp [Function.comp, h]

/-- One push-loop iteration, characterized per record: the processed
record is rewritten by `pushTransform`, its calls are appended, and
exactly one of the two counters is bumped. -/
theorem pushStep_eq (uid : String) (now : Nat) (env : String → SyncOpResult)
    (l : List LocalTask) (cs : List NetCall) (sc ec : Nat) (p : LocalTask)
    (hnd : (l.map (fun t => t.id)).Nodup) (hp : p ∈ l) :
    pushStep uid now env (l, cs, sc, ec) p =
      (l.map (fun t => if t.id = p.id then pushTransform now env t else t),
       cs ++ callsOf uid p,
       sc + (if okOf env p then 1 else 0),
       ec + (if okOf env p then 0 else 1)) := by
  have hmain : ∀ g : LocalTask → LocalTask, g p = pushTransform now env p →
      l.map (fun t => if t.id = p.id then g t else t) =
      l.map (fun t => if t.id = p.id then pushTransform now env t else t) := by
    intro g hg
    apply List.map_congr_left
    intro t ht
    by_cases h : t.id = p.id
    · have e : t = p := idsNodup_inj hnd ht hp h
      subst e
      simp [h, hg]
    · simp [h]
  rcases hd : p.is_deleted <;> rcases hs : p.server_id with _ | sid <;>
    rcases he : env p.id with dataId | msg
  · rcases dataId with _ | d
    · simp only [pushStep, hd, hs, he, markSynced, okOf, callsOf, Bool.false_eq_true,
        Bool.true_eq_false, if_false, if_true]
      rw [setAtId_eq_map l p _ hnd hp, hmain _ (by simp [pushTransform, hd, hs, he])]
      simp [hd, hs, he]
    · simp only [pushStep, hd, hs, he, markSynced, okOf, callsOf, Bool.false_eq_true,
        Bool.true_eq_false, if_false, if_true]
      have h2 := setAtId_twice_map l p
        (fun t => { t with server_id := some d })
        (fun t => { t with sync_status := SyncStatus.synced, last_synced_at := some now })
        hnd hp (fun t => rfl)
      rw [h2, hmain _ (by simp [pushTransform, hd, hs, he])]
      simp [hd, hs, he]
  · simp only [pushStep, hd, hs, he, markError, okOf, callsOf, Bool.false_eq_true,
      Bool.true_eq_false, if_false, if_true]
    rw [setAtId_eq_map l p _ hnd hp, hmain _ (by simp [pushTransform, hd, hs, he])]
    simp [hd, hs, he]
  · simp only [pushStep, hd, hs, he, markSynced, okOf, callsOf, Bool.false_eq_true,
      Bool.true_eq_false, if_false, if_true]
    rw [setAtId_eq_map l p _ hnd hp, hmain _ (by simp [pushTransform, hd, hs, he])]
    simp [hd, hs, he]
  · simp only [pushStep, hd, hs, he, markError, okOf, callsOf, Bool.false_eq_true,
      Bool.true_eq_false, if_false, if_true]
    rw [setAtId_eq_map l p _ hnd hp, hmain _ (by simp [pushTransform, hd, hs, he])]
    simp [hd, hs, he]
  · simp only [pushStep, hd, hs, markSynced, okOf, callsOf, Bool.false_eq_true,
      Bool.true_eq_false, if_false, if_true]
    rw [setAtId_eq_map l p _ hnd hp, hmain _ (by simp [pushTransform, hd, hs])]
    simp [hd, hs]
  · simp only [pushStep, hd, hs, markSynced, okOf, callsOf, Bool.false_eq_true,
      Bool.true_eq_false, if_false, if_true]
    rw [setAtId_eq_map l p _ hnd hp, hmain _ (by simp [pushTransform, hd, hs])]
    simp [hd, hs]
  · simp only [pushStep, hd, hs, he, markSynced, okOf, callsOf, Bool.false_eq_true,
      Bool.true_eq_false, if_false, if_true]
    rw [setAtId_eq_map l p _ hnd hp, hmain _ (by simp [pushTransform, hd, hs, he])]
    simp [hd, hs, he]
  · simp only [pushStep, hd, hs, he, markError, okOf, callsOf, Bool.false_eq_true,
      Bool.true_eq_false, if_false, if_true]
    rw [setAtId_eq_map l p _ hnd hp, hmain _ (by simp [pushTransform, hd, hs, he])]
    simp [hd, hs, he]

/-- The push loop over a duplicate-free batch of records taken from the
store: every processed id is rewritten once, calls concatenate in batch
order, and the counters add up per record. -/
theorem foldl_pushStep_eq (uid : String) (now : Nat) (env : String → SyncOpResult)
    (ps : List LocalTask) :
    ∀ (l : List LocalTask) (cs : List NetCall) (sc ec : Nat),
    (∀ p ∈ ps, p ∈ l) → ((l.map (fun t => t.id)).Nodup) →
    ((ps.map (fun t => t.id)).Nodup) →
    ps.foldl (pushStep uid now env) (l, cs, sc, ec) =
      (l.map (fun t =>
         if t.id ∈ ps.map (fun q => q.id) then pushTransform now env t else t),
       cs ++ ps.flatMap (callsOf uid),
       sc + (ps.filter (okOf env)).length,
       ec + (ps.filter (fun p => !okOf env p)).length) := by
  induction ps with
  | nil =>
      intro l cs sc ec _ _ _
      simp
  | cons p ps ih =>
      intro l cs sc ec hsub hnd hpnd
      have hpl : p ∈ l := hsub p (List.mem_cons_self p ps)
      have hpid : p.id ∉ ps.map (fun q => q.id) := by
        have := hpnd
        simp only [List.map_cons, List.nodup_cons] at this
        exact this.1
      have hpnd' : (ps.map (fun t => t.id)).Nodup := by
        have := hpnd
        simp only [List.map_cons, List.nodup_cons] at this
        exact this.2
      rw [List.foldl_cons, pushStep_eq uid now env l cs sc ec p hnd hpl]
      have hfid : ∀ t : LocalTask,
          ((fun t => if t.id = p.id then pushTransform now env t else t) t).id = t.id := by
        intro t
        by_cases h : t.id = p.id <;> simp [h, pushTransform_id]
      have hnd1 : ((l.map (fun t => if t.id = p.id then pushTransform now env t else t)).map
          (fun t => t.id)).Nodup := by
        rw [mapIds_preserved _ _ hfid]
        exact hnd
      have hsub1 : ∀ q ∈ ps,
          q ∈ l.map (fun t => if t.id = p.id then pushTransform now env t else t) := by
        intro q hq
        have hql : q ∈ l := hsub q (List.mem_cons_of_mem p hq)
        have hqid : q.id ≠ p.id := by
          intro e
          exact hpid (e ▸ List.mem_map.mpr ⟨q, hq, rfl⟩)
        exact List.mem_map.mpr ⟨q, hql, by simp [hqid]⟩
      rw [ih _ _ _ _ hsub1 hnd1 hpnd']
      refine congrArg₂ Prod.mk ?_ (congrArg₂ Prod.mk ?_ (congrArg₂ Prod.mk ?_ ?_))
      · rw [List.map_map]
        apply List.map_congr_left
        intro t _
        by_cases h : t.id = p.id
        · have hptid : (pushTransform now env t).id ∉ ps.map (fun q => q.id) := by
            rw [pushTransform_id, h]
            exact hpid
          simp [Function.comp, h, hptid]
        · simp only [Function.comp, if_neg h]
          by_cases h2 : t.id ∈ ps.map (fun q => q.id)
          · simp [h, h2]
          · simp [h, h2]
      · rw [List.flatMap_cons, List.append_assoc]
      · rw [List.filter_cons]
        by_cases h : okOf env p
        · simp [h, Nat.add_assoc, Nat.add_comm 1]
        · simp [h]
      · rw [List.filter_cons]
        by_cases h : okOf env p
        · simp [h]
        · simp [h, Nat.add_assoc, Nat.add_comm 1]

theorem filter_pending_ids_nodup (l : List LocalTask)
    (hnd : (l.map (fun t => t.id)).Nodup) :
    ((l.filter isPending).map (fun t => t.id)).Nodup :=
  List.Nodup.sublist (List.Sublist.map _ (List.filter_sublist l)) hnd

/-- The whole push pass, characterized: the store is rewritten record by
record (pending records through `pushTransform`, others untouched), the
call log is the in-order concatenation of each pending record's calls,
and the counters are the sizes of the succeeding/failing splits of the
pending snapshot. -/
theorem syncPush_eq (uid : String) (now : Nat) (env : String → SyncOpResult)
    (l : List LocalTask) (hnd : (l.map (fun t => t.id)).Nodup) :
    syncPush uid now env l =
      (l.map (fun t =>
         if t.sync_status = SyncStatus.pending then pushTransform now env t else t),
       (l.filter isPending).flatMap (callsOf uid),
       ((l.filter isPending).filter (okOf env)).length,
       ((l.filter isPending).filter (fun p => !okOf env p)).length) := by
  unfold syncPush
  rw [foldl_pushStep_eq uid now env (l.filter isPending) l [] 0 0
    (fun p hp => (List.mem_filter.mp hp).1) hnd (filter_pending_ids_nodup l hnd)]
  simp only [List.nil_append, Nat.zero_add]
  refine congrArg₂ Prod.mk ?_ rfl
  apply List.map_congr_left
  intro t ht
  by_cases hp : t.sync_status = SyncStatus.pending
  · have h1 : t ∈ l.filter isPending :=
      List.mem_filter.mpr ⟨ht, by simp [isPending, hp]⟩
    have h2 : t.id ∈ (l.filter isPending).map (fun q => q.id) :=
      List.mem_map.mpr ⟨t, h1, rfl⟩
    simp [h2, hp]
  · have h2 : t.id ∉ (l.filter isPending).map (fun q => q.id) := by
      intro hmem
      obtain ⟨u, hu, he⟩ := List.mem_map.mp hmem
      have hul : u ∈ l := (List.mem_filter.mp hu).1
      have he2 : u = t := idsNodup_inj hnd hul ht he
      subst he2
      have := (List.mem_filter.mp hu).2
      simp [isPending, hp] at this
    simp [h2, hp]

theorem pushTransform_status_ne_pending (now : Nat) (env : String → SyncOpResult)
    (t : LocalTask) : (pushTransform now env t).sync_status ≠ SyncStatus.pending := by
  unfold pushTransform
  rcases hd : t.is_deleted <;> rcases hs : t.server_id <;> rcases he : env t.id <;>
    simp [hd, hs, he]

/-- After a full `syncTasks` pass, no record in the store is `pending`:
each previously pending record was marked `synced` or `error`, and a
successful trailing pull re-tags everything `synced`. -/
theorem syncTasks_store_no_pending (uid : String) (now : Nat)
    (env : String → SyncOpResult) (pull : Option (List Task)) (st : ClientState)
    (hnd : (st.store.map (fun t => t.id)).Nodup) :
    ∀ t ∈ (syncTasks uid now env pull st).1.store,
      t.sync_status ≠ SyncStatus.pending := by
  unfold syncTasks
  by_cases he : (st.store.filter isPending).isEmpty
  · rw [if_pos he]
    intro t ht hp
    rw [List.isEmpty_iff, List.filter_eq_nil_iff] at he
    exact he t ht (by simp [isPending, hp])
  · rw [if_neg he]
    intro t ht hp
    rcases pull with _ | data
    · simp only [fetchTasks] at ht
      rw [syncPush_eq uid now env st.store hnd] at ht
      simp only at ht
      obtain ⟨u, _, rfl⟩ := List.mem_map.mp ht
      by_cases hu : u.sync_status = SyncStatus.pending
      · rw [if_pos hu] at hp
        exact pushTransform_status_ne_pending now env u hp
      · rw [if_neg hu] at hp
        exact hu hp
    · simp only [fetchTasks] at ht
      obtain ⟨row, _, rfl⟩ := List.mem_map.mp ht
      simp [toLocal] at hp

/-- `syncTasks` on a store with nothing pending early-returns: no calls,
no counts, state untouched. -/
theorem syncTasks_noop_of_no_pending (uid : String) (now : Nat)
    (env : String → SyncOpResult) (pull : Option (List Task)) (s : ClientState)
    (h : ∀ t ∈ s.store, t.sync_status ≠ SyncStatus.pending) :
    syncTasks uid now env pull s = (s, [], 0, 0) := by
  unfold syncTasks
  have hemp : (s.store.filter isPending).isEmpty := by
    rw [List.isEmpty_iff, List.filter_eq_nil_iff]
    intro t ht
    simp [isPending, h t ht]
  rw [if_pos hemp]

/-- When every pending record's remote call resolves, the pass reports
zero failures. -/
theorem syncTasks_error_count_zero (uid : String) (now : Nat)
    (env : String → SyncOpResult) (pull : Option (List Task)) (st : ClientState)
    (hnd : (st.store.map (fun t => t.id)).Nodup)
    (hok : ∀ t ∈ st.store, t.sync_status = SyncStatus.pending → okOf env t = true) :
    (syncTasks uid now env pull st).2.2.2 = 0 := by
  unfold syncTasks
  by_cases he : (st.store.filter isPending).isEmpty
  · rw [if_pos he]
  · rw [if_neg he]
    simp only
    rw [syncPush_eq uid now env st.store hnd]
    simp only
    have hnil : (st.store.filter isPending).filter (fun p => !okOf env p) = [] := by
      rw [List.filter_eq_nil_iff]
      intro p hp
      obtain ⟨hpl, hpp⟩ := List.mem_filter.mp hp
      have hokp : okOf env p = true := hok p hpl (by simpa [isPending] using hpp)
      simp [hokp]
    rw [hnil]
    rfl

/-- Each offline user operation keeps the pending counter equal to the
count recomputed from the store (it either rewrites both through
`saveLocalTasks` or touches neither). -/
theorem applyOpOffline_pending_inv (uid : String) (s : ClientState) (o : Op)
    (h : s.pendingSyncCount = pendingCountOf s.store) :
    (applyOpOffline uid s o).pendingSyncCount =
      pendingCountOf (applyOpOffline uid s o).store := by
  cases o with
  | create now newId title d => rfl
  | update id u now =>
      simp only [applyOpOffline, updateTask]
      split
      · exact h
      · rfl
  | del id now =>
      simp only [applyOpOffline, deleteTask]
      split
      · exact h
      · rfl

/-- A record of the store that is replaced at a position can be the only
record matching that position's id, when ids are unique. -/
theorem mem_set_same_id {l : List LocalTask} {i : Nat} {v t : LocalTask}
    (hnd : (l.map (fun q => q.id)).Nodup) (hi : i < l.length)
    (ht : t ∈ l.set i v) (hid : t.id = (l.getD i defaultTask).id) : t = v := by
  obtain ⟨j, hj, he⟩ := List.mem_iff_getElem.mp ht
  by_cases hji : j = i
  · subst hji
    rw [List.getElem_set_self] at he
    exact he.symm
  · exfalso
    apply hji
    rw [List.getElem_set_ne (fun e => hji e.symm)] at he
    have hjl : j < l.length := by simpa using hj
    have hj2 : j < (l.map (fun q => q.id)).length := by simpa using hjl
    have hi2 : i < (l.map (fun q => q.id)).length := by simpa using hi
    have e2 : (l.map (fun q => q.id))[j] = (l.map (fun q => q.id))[i] := by
      rw [List.getElem_map, List.getElem_map, he, hid, List.getD_eq_getElem _ _ hi]
    exact (List.Nodup.getElem_inj_iff hnd).mp e2

/-! ## Claim theorems -/

/-- C1: the claim says a pull never overwrites a record whose status is
`pending` or `error`.  The code's `fetchTasks` replaces the whole local
store with the server rows (each re-tagged `synced`): at a concrete
pending record with local title "X-edited" and server title "X-old",
the pull leaves the store holding "X-old"/`synced`, discarding the
pending local edit. -/
theorem pull_overwrites_pending_record :
    xEditedTask.sync_status = SyncStatus.pending ∧
    xEditedTask.title = "X-edited" ∧
    ((fetchTasks "u" 100 (some [xOldRow]) xState).1.store.map
        (fun t => (t.title, t.sync_status))) =
      [("X-old", SyncStatus.synced)] := by
  decide

/-- C3: the claim says a task deleted while never pushed is purged from
the local store with no server call.  At a concrete never-pushed record,
an offline `deleteTask` issues no call but retains the record as a
pending tombstone instead of purging it. -/
theorem offline_delete_unsynced_retains_tombstone :
    (deleteTask "u" "a1" 5 NetEnv.offline freshState).2 = [] ∧
    ((deleteTask "u" "a1" 5 NetEnv.offline freshState).1.store.map
        (fun t => (t.id, t.is_deleted, t.sync_status))) =
      [("a1", true, SyncStatus.pending)] := by
  decide

/-- C4: when the pull's fetch fails, `fetchTasks` serves exactly the
non-deleted tasks already in the local store and leaves the store (and
the rest of the client state) unchanged. -/
theorem pull_failure_serves_local_nondeleted (uid : String) (now : Nat)
    (st : ClientState) :
    fetchTasks uid now none st =
      ({ st with tasks := (st.store.filter (fun t => !t.is_deleted)).map (toTask uid) },
       [NetCall.fetchAll]) := rfl

/-- C5 counterexample: the claim says a failed push records the error
message on the record.  The push result is identical for two different
thrown messages, and the failed record differs from its pre-push state
only in `sync_status`: no component of the store holds the message. -/
theorem push_failure_message_not_recorded :
    syncPush "u" 9 (fun _ => SyncOpResult.exn "ValidationError: bad title")
        c5state.store =
      syncPush "u" 9 (fun _ => SyncOpResult.exn "boom") c5state.store ∧
    (syncPush "u" 9 (fun _ => SyncOpResult.exn "boom") c5state.store).1 =
      [{ c5task with sync_status := SyncStatus.error }] := by
  decide

/-- C6: the claim says every `synced` record has `serverId` set, and a
deletion that never reached the server is purged instead of marked
synced.  Pushing a concrete pending tombstone with no `server_id`
issues no push call, yet retains the record marked `synced` with
`server_id` still absent. -/
theorem sync_retains_unsynced_deletion_as_synced :
    ((syncTasks "u" 7 (fun _ => SyncOpResult.ok none) none
        deletedUnsyncedState).1.store.map
        (fun t => (t.sync_status, t.server_id, t.is_deleted))) =
      [(SyncStatus.synced, (none : Option String), true)] ∧
    (syncTasks "u" 7 (fun _ => SyncOpResult.ok none) none
        deletedUnsyncedState).2.1 = [NetCall.fetchAll] := by
  decide

/-- C7 counterexample: the claim says `pendingCount` counts every
non-purged record carrying an unsynced mutation, including pending
deletions.  After an offline create followed by an offline delete, the
store holds one pending tombstone, but the counter reads 0: pending
deletions are excluded. -/
theorem pending_count_excludes_deleted_tombstone :
    ((deleteTask "u" "a" 2 NetEnv.offline
        (createTask "u" 1 "a" "A" none NetEnv.offline emptyState).1).1.pendingSyncCount
      = 0) ∧
    (((deleteTask "u" "a" 2 NetEnv.offline
        (createTask "u" 1 "a" "A" none NetEnv.offline emptyState).1).1.store.filter
        isPending).length = 1) := by
  decide

/-- C8: the claim says `updated_at` never decreases for a record across
any operation.  A successful pull overwrites a locally edited record
(`updated_at = 20`) with the stale server row (`updated_at = 10`),
decreasing it. -/
theorem pull_decreases_updated_at :
    ((xState.store.map (fun t => t.updated_at)) = [20]) ∧
    (((fetchTasks "u" 100 (some [xOldRow]) xState).1.store.map
        (fun t => (t.id, t.updated_at))) = [("t1", 10)]) := by
  decide

/-- C2: push is idempotent on the pending queue.  For any store with
unique ids whose pending records all succeed, the first push pass
reports zero failures and leaves no record `pending`, so a second
`syncTasks` call with no intervening mutation issues no network calls
and returns the state unchanged with zero counts. -/
theorem push_idempotent_second_pass_noop (uid : String) (now now2 : Nat)
    (env env2 : String → SyncOpResult) (pull1 pull2 : Option (List Task))
    (st : ClientState)
    (hnd : (st.store.map (fun t => t.id)).Nodup)
    (hok : ∀ t ∈ st.store, t.sync_status = SyncStatus.pending → okOf env t = true) :
    (syncTasks uid now env pull1 st).2.2.2 = 0 ∧
    (∀ t ∈ (syncTasks uid now env pull1 st).1.store,
      t.sync_status ≠ SyncStatus.pending) ∧
    syncTasks uid now2 env2 pull2 (syncTasks uid now env pull1 st).1 =
      ((syncTasks uid now env pull1 st).1, [], 0, 0) := by
  have hA := syncTasks_store_no_pending uid now env pull1 st hnd
  exact ⟨syncTasks_error_count_zero uid now env pull1 st hnd hok, hA,
    syncTasks_noop_of_no_pending uid now2 env2 pull2 _ hA⟩

theorem push_idempotent_second_pass_noop_witness :
    ((freshState.store.map (fun t => t.id)).Nodup) ∧
    (∀ t ∈ freshState.store, t.sync_status = SyncStatus.pending →
      okOf (fun _ => SyncOpResult.ok (some "srv1")) t = true) ∧
    ((syncTasks "u" 5 (fun _ => SyncOpResult.ok (some "srv1")) none freshState).2.2.2 = 0 ∧
     (∀ t ∈ (syncTasks "u" 5 (fun _ => SyncOpResult.ok (some "srv1")) none freshState).1.store,
       t.sync_status ≠ SyncStatus.pending) ∧
     syncTasks "u" 6 (fun _ => SyncOpResult.ok (some "srv1")) none
         (syncTasks "u" 5 (fun _ => SyncOpResult.ok (some "srv1")) none freshState).1 =
       ((syncTasks "u" 5 (fun _ => SyncOpResult.ok (some "srv1")) none freshState).1,
        [], 0, 0)) :=
  ⟨by decide, by decide,
    push_idempotent_second_pass_noop "u" 5 6 (fun _ => SyncOpResult.ok (some "srv1"))
      (fun _ => SyncOpResult.ok (some "srv1")) none none freshState
      (by decide) (by decide)⟩

/-- C5 (amended): a push pass processes pending records in the order
they appear in the store — its call log is the in-order concatenation
of each pending record's calls — a failure affects only the failing
record (the final store is a per-record rewrite, failed records marked
`error` and non-pending records untouched; the thrown message is logged
but not stored), and succeeded plus failed equals the number of pending
records processed. -/
theorem push_batch_order_isolation_counts (uid : String) (now : Nat)
    (env : String → SyncOpResult) (l : List LocalTask)
    (hnd : (l.map (fun t => t.id)).Nodup) :
    syncPush uid now env l =
      (l.map (fun t =>
         if t.sync_status = SyncStatus.pending then pushTransform now env t else t),
       (l.filter isPending).flatMap (callsOf uid),
       ((l.filter isPending).filter (okOf env)).length,
       ((l.filter isPending).filter (fun p => !okOf env p)).length) ∧
    ((l.filter isPending).filter (okOf env)).length +
      ((l.filter isPending).filter (fun p => !okOf env p)).length =
      (l.filter isPending).length :=
  ⟨syncPush_eq uid now env l hnd, (List.length_eq_length_filter_add (okOf env)).symm⟩

theorem push_batch_order_isolation_counts_witness :
    ((qStore.map (fun t => t.id)).Nodup) ∧
    (syncPush "u" 9 qEnv qStore =
      (qStore.map (fun t =>
         if t.sync_status = SyncStatus.pending then pushTransform 9 qEnv t else t),
       (qStore.filter isPending).flatMap (callsOf "u"),
       ((qStore.filter isPending).filter (okOf qEnv)).length,
       ((qStore.filter isPending).filter (fun p => !okOf qEnv p)).length) ∧
     ((qStore.filter isPending).filter (okOf qEnv)).length +
       ((qStore.filter isPending).filter (fun p => !okOf qEnv p)).length =
       (qStore.filter isPending).length) :=
  ⟨by decide, push_batch_order_isolation_counts "u" 9 qEnv qStore (by decide)⟩

/-- C7 (amended): across any sequence of offline create/update/delete
operations, the observable `pendingSyncCount` stays equal to the number
of store records that are `pending` and not marked deleted — pending
deletions are excluded from the count. -/
theorem pending_count_matches_store_offline (uid : String) (ops : List Op)
    (s : ClientState) (h : s.pendingSyncCount = pendingCountOf s.store) :
    (ops.foldl (applyOpOffline uid) s).pendingSyncCount =
      pendingCountOf (ops.foldl (applyOpOffline uid) s).store := by
  induction ops generalizing s with
  | nil => exact h
  | cons o ops ih =>
      rw [List.foldl_cons]
      exact ih _ (applyOpOffline_pending_inv uid s o h)

theorem pending_count_matches_store_offline_witness :
    (emptyState.pendingSyncCount = pendingCountOf emptyState.store) ∧
    (([Op.create 1 "a" "A" none, Op.del "a" 2].foldl (applyOpOffline "u")
        emptyState).pendingSyncCount =
      pendingCountOf ([Op.create 1 "a" "A" none, Op.del "a" 2].foldl
        (applyOpOffline "u") emptyState).store) :=
  ⟨rfl, pending_count_matches_store_offline "u"
    [Op.create 1 "a" "A" none, Op.del "a" 2] emptyState rfl⟩

/-- C9: every create/update/delete call completes its write against the
local store regardless of the network outcome.  For every environment
(offline, remote call resolves, remote call throws): a create leaves a
record with the requested fields in the store; an update leaves the
record at the matched position with the requested fields applied,
`updated_at` stamped and deletion flag unchanged; a delete leaves no
record with the matched record's id that is not tombstoned. -/
theorem local_write_completes_regardless_of_network
    (uid : String) (now : Nat) (newId title : String) (desc : Option String)
    (id : String) (u : TaskUpdates) (env : NetEnv) (st : ClientState) (i : Nat)
    (hnd : (st.store.map (fun t => t.id)).Nodup)
    (hi : st.store.findIdx? (fun t => decide (t.id = id ∨ t.server_id = some id)) = some i) :
    (∃ t ∈ (createTask uid now newId title desc env st).1.store,
       t.id = newId ∧ t.title = title ∧ t.description = jsDescr desc ∧
       t.completed = false ∧ t.is_deleted = false) ∧
    ((fun t => (t.id, t.title, t.description, t.completed, t.updated_at, t.is_deleted))
        ((updateTask uid id u now env st).1.store.getD i defaultTask) =
      ((st.store.getD i defaultTask).id,
       u.title.getD (st.store.getD i defaultTask).title,
       u.description.getD (st.store.getD i defaultTask).description,
       u.completed.getD (st.store.getD i defaultTask).completed,
       now,
       (st.store.getD i defaultTask).is_deleted)) ∧
    (∀ t ∈ (deleteTask uid id now env st).1.store,
       t.id = (st.store.getD i defaultTask).id → t.is_deleted = true) := by
  have hlen : i < st.store.length := (List.findIdx?_eq_some_iff_findIdx_eq.mp hi).1
  have hlen1 : i < (st.store.set i
      { applyUpdatesL u (st.store.getD i defaultTask) with
        updated_at := now
        sync_status := SyncStatus.pending }).length := by simpa using hlen
  refine ⟨?_, ?_, ?_⟩
  · cases env with
    | offline =>
        exact ⟨⟨newId, title, jsDescr desc, false, now, now, false, none, none,
          SyncStatus.pending⟩, by simp [createTask], by simp⟩
    | onlineErr =>
        exact ⟨⟨newId, title, jsDescr desc, false, now, now, false, none, none,
          SyncStatus.pending⟩, by simp [createTask], by simp⟩
    | onlineOk sid =>
        refine ⟨⟨newId, title, jsDescr desc, false, now, now, false, some sid, some now,
          SyncStatus.synced⟩, ?_, by simp⟩
        simp only [createTask]
        apply List.mem_map.mpr
        exact ⟨⟨newId, title, jsDescr desc, false, now, now, false, none, none,
          SyncStatus.pending⟩, by simp, by simp⟩
  · simp only [updateTask, hi]
    cases env with
    | offline =>
        simp only
        rw [List.getD_eq_getElem _ _ hlen1, List.getElem_set_self]
        simp [applyUpdatesL]
    | onlineErr =>
        simp only
        rw [List.getD_eq_getElem _ _ hlen1, List.getElem_set_self]
        simp [applyUpdatesL]
    | onlineOk sid =>
        simp only
        rw [List.getD_eq_getElem _ _ (by simpa using hlen), List.getElem_set_self]
        simp [applyUpdatesL]
  · intro t ht hid
    simp only [deleteTask, hi] at ht
    cases env with
    | offline =>
        have he := mem_set_same_id hnd hlen ht hid
        rw [he]
    | onlineErr =>
        have he := mem_set_same_id hnd hlen ht hid
        rw [he]
    | onlineOk sid =>
        have ht2 := List.mem_of_mem_eraseIdx ht
        have he := mem_set_same_id hnd hlen ht2 hid
        rw [he]

theorem local_write_completes_regardless_of_network_witness :
    ((xState.store.map (fun t => t.id)).Nodup) ∧
    (xState.store.findIdx?
      (fun t => decide (t.id = "t1" ∨ t.server_id = some "t1")) = some 0) ∧
    ((∃ t ∈ (createTask "u" 50 "n1" "New" none NetEnv.offline xState).1.store,
       t.id = "n1" ∧ t.title = "New" ∧ t.description = jsDescr none ∧
       t.completed = false ∧ t.is_deleted = false) ∧
    ((fun t => (t.id, t.title, t.description, t.completed, t.updated_at, t.is_deleted))
        ((updateTask "u" "t1" { title := some "Renamed" } 50 NetEnv.offline
          xState).1.store.getD 0 defaultTask) =
      ((xState.store.getD 0 defaultTask).id,
       (some "Renamed").getD (xState.store.getD 0 defaultTask).title,
       ((none : Option (Option String))).getD (xState.store.getD 0 defaultTask).description,
       ((none : Option Bool)).getD (xState.store.getD 0 defaultTask).completed,
       50,
       (xState.store.getD 0 defaultTask).is_deleted)) ∧
    (∀ t ∈ (deleteTask "u" "t1" 50 NetEnv.offline xState).1.store,
       t.id = (xState.store.getD 0 defaultTask).id → t.is_deleted = true)) :=
  ⟨by decide, by decide,
    local_write_completes_regardless_of_network "u" 50 "n1" "New" none "t1"
      { title := some "Renamed" } NetEnv.offline xState 0 (by decide) (by decide)⟩

/-- C10: an update or delete whose identifier matches no record's `id`
or `server_id` is a no-op: the whole client state (store and visible
list) is returned unchanged and no network call is issued. -/
theorem unknown_id_mutation_noop (uid id : String) (u : TaskUpdates) (now : Nat)
    (env : NetEnv) (st : ClientState)
    (h : ∀ t ∈ st.store, t.id ≠ id ∧ t.server_id ≠ some id) :
    updateTask uid id u now env st = (st, []) ∧
    deleteTask uid id now env st = (st, []) := by
  have hnone : st.store.findIdx?
      (fun t => decide (t.id = id ∨ t.server_id = some id)) = none := by
    rw [List.findIdx?_eq_none_iff]
    intro t ht
    simp [(h t ht).1, (h t ht).2]
  constructor
  · unfold updateTask
    rw [hnone]
  · unfold deleteTask
    rw [hnone]

theorem unknown_id_mutation_noop_witness :
    (∀ t ∈ xState.store, t.id ≠ "zzz" ∧ t.server_id ≠ some "zzz") ∧
    (updateTask "u" "zzz" {} 3 NetEnv.offline xState = (xState, []) ∧
     deleteTask "u" "zzz" 3 NetEnv.offline xState = (xState, [])) :=
  ⟨by decide,
    unknown_id_mutation_noop "u" "zzz" {} 3 NetEnv.offline xState (by decide)⟩

end OfflineTasks
